import Mathlib

/-
Verification development for the Schedule.AI repository.

This file gives a shallow embedding, in Lean 4, of the parts of the
repository that the frozen claims talk about:

  * encryption.py   : encrypt_token / decrypt_token over an abstract
                      symmetric cipher (the Fernet object is an external
                      collaborator; it is modelled as a structure carrying
                      the round-trip guarantee its documentation states,
                      with ciphertexts modelled as nonempty char lists).
  * database.py     : the Token record store (save_token, get_user_tokens,
                      is_token_expired), the EmailLog audit table
                      (log_email_sent), and the ScheduledJob table
                      (create_scheduled_job, update_job_status,
                      cancel_scheduled_job).
  * utils.py        : refresh_access_token and get_valid_token; the
                      provider token endpoint is an oracle value.
  * agent.py        : format_time_12hr, format_datetime_full, send_email
                      and the fan-out orchestrator send_email_to_users;
                      network calls (calendar fetch, Gmail send) are
                      oracle values supplied per recipient.
  * functions.py    : schedule_email_job and cancel_job, together with a
                      small transition system for the registrar
                      (schedule / external-trigger fire / cancel).

Machine datetimes are modelled as integers (seconds); Python truthiness
of optional values is modelled explicitly wherever the source branches
on it.
-/

namespace ScheduleAI

/-! ### encryption.py -/

/-- Model of the Fernet cipher collaborator: an injective encryption whose
documentation guarantees that decryption inverts encryption and that
ciphertexts are nonempty. Ciphertext bytes are modelled as char lists. -/
structure Cipher where
  enc : String → List Char
  dec : List Char → String
  dec_enc : ∀ s : String, dec (enc s) = s
  enc_ne_nil : ∀ s : String, enc s ≠ []

/-- encryption.py, encrypt_token: returns None on falsy input (None or the
empty string), otherwise the ciphertext of the encoded string. -/
def encrypt_token (c : Cipher) : Option String → Option (List Char)
  | none => none
  | some s => if s = "" then none else some (c.enc s)

/-- encryption.py, decrypt_token: returns None on falsy input (None or
empty bytes), otherwise the decrypted plaintext. -/
def decrypt_token (c : Cipher) : Option (List Char) → Option String
  | none => none
  | some b => if b = [] then none else some (c.dec b)

/-- Concrete executable cipher instance used to evaluate the model on
concrete inputs (a stand-in for a Fernet key). -/
def idCipher : Cipher where
  enc s := '#' :: s.data
  dec l := String.mk (l.drop 1)
  dec_enc _ := rfl
  enc_ne_nil _ := by simp

/-! ### database.py : Token store -/

/-- database.py, Token model row. access_token and refresh_token hold the
encrypted bytes; expires_at and updated_at are UTC timestamps. -/
structure TokenRec where
  user_id : Nat
  access_token : Option (List Char)
  refresh_token : Option (List Char)
  expires_at : Int
  updated_at : Int
  deriving DecidableEq, Repr

/-- Dictionary shape returned by get_user_tokens (carries expires_at) and
by refresh_access_token (carries expires_in): Python uses plain dicts, so
one structure with optional fields covers both. -/
structure PyTokenDict where
  access_token : Option String
  refresh_token : Option String
  expires_at : Option Int
  expires_in : Option Int
  deriving DecidableEq, Repr

/-- Python truthiness of an optional byte string. -/
def truthyBytes : Option (List Char) → Bool
  | none => false
  | some b => b != []

/-- Python truthiness of an optional string. -/
def truthyS : Option String → Bool
  | none => false
  | some s => s != ""

/-- Token.query.filter_by(user_id=...).first() -/
def find_token (uid : Nat) (db : List TokenRec) : Option TokenRec :=
  db.find? (fun t => t.user_id == uid)

/-- Replace the first element satisfying p by its image under f. -/
def updateFirst {α : Type} (p : α → Bool) (f : α → α) : List α → List α
  | [] => []
  | x :: xs => if p x then f x :: xs else x :: updateFirst p f xs

/-- database.py, get_user_tokens: decrypts the stored pair of the first
token row of the user, or None when no row exists. -/
def get_user_tokens (c : Cipher) (uid : Nat) (db : List TokenRec) : Option PyTokenDict :=
  match find_token uid db with
  | none => none
  | some t =>
    some { access_token := decrypt_token c t.access_token
           refresh_token := if truthyBytes t.refresh_token then decrypt_token c t.refresh_token else none
           expires_at := some t.expires_at
           expires_in := none }

/-- database.py, save_token: updates the existing row of the user (the
refresh field only when the new refresh value is truthy) or inserts a new
row; expires_at is now + expires_in. -/
def save_token (c : Cipher) (uid : Nat) (access refresh : Option String)
    (expires_in : Int) (now : Int) (db : List TokenRec) : List TokenRec :=
  let expires_at := now + expires_in
  match find_token uid db with
  | some _ =>
    updateFirst (fun t => t.user_id == uid)
      (fun t =>
        { t with
          access_token := encrypt_token c access
          refresh_token := if truthyS refresh then encrypt_token c refresh else t.refresh_token
          expires_at := expires_at
          updated_at := now }) db
  | none =>
    db ++ [{ user_id := uid
             access_token := encrypt_token c access
             refresh_token := if truthyS refresh then encrypt_token c refresh else none
             expires_at := expires_at
             updated_at := now }]

/-- database.py, is_token_expired: True when no row exists, else the
comparison utcnow() > expires_at. -/
def is_token_expired (uid : Nat) (now : Int) (db : List TokenRec) : Bool :=
  match find_token uid db with
  | none => true
  | some t => decide (now > t.expires_at)

/-! ### utils.py : token refresh -/

/-- JSON body of the provider token-endpoint response, as read by
refresh_access_token via .get calls. -/
structure TokenBody where
  access_token : Option String
  refresh_token : Option String
  expires_in : Option Int
  deriving DecidableEq, Repr

/-- Outcome of the requests.post call to the token endpoint: either a
raised exception or an HTTP response with a status and body. -/
inductive ProviderResp where
  | exn (msg : String)
  | http (status : Nat) (body : TokenBody)
  deriving DecidableEq, Repr

/-- utils.py, refresh_access_token: loads the stored pair, fails (None,
store untouched) when there is no row, no truthy refresh token, a raised
exception, or a non-200 status; otherwise persists via save_token, always
re-using the previously stored refresh token, and returns the new dict
(access_token, old refresh_token, expires_in). -/
def refresh_access_token (c : Cipher) (uid : Nat) (resp : ProviderResp)
    (now : Int) (db : List TokenRec) : Option PyTokenDict × List TokenRec :=
  match get_user_tokens c uid db with
  | none => (none, db)
  | some td =>
    match td.refresh_token with
    | none => (none, db)
    | some r =>
      if r = "" then (none, db)
      else
        match resp with
        | .exn _ => (none, db)
        | .http status body =>
          if status ≠ 200 then (none, db)
          else
            let na := body.access_token
            let ei := (body.expires_in).getD 3600
            let db2 := save_token c uid na (some r) ei now db
            (some { access_token := na, refresh_token := some r,
                    expires_at := none, expires_in := some ei }, db2)

/-- utils.py, get_valid_token: auto-refresh when expired, else return the
stored dict without touching the provider. -/
def get_valid_token (c : Cipher) (uid : Nat) (resp : ProviderResp)
    (now : Int) (db : List TokenRec) : Option PyTokenDict × List TokenRec :=
  if is_token_expired uid now db then refresh_access_token c uid resp now db
  else (get_user_tokens c uid db, db)

/-! ### database.py : User and EmailLog, agent.py : orchestrator -/

/-- database.py, User model row (the fields the orchestrator reads). -/
structure PyUser where
  id : Nat
  email : String
  name : String
  role : String
  fetch_days : Option Nat
  deriving DecidableEq, Repr

/-- database.py, User.is_admin. -/
def PyUser.is_admin (u : PyUser) : Bool := u.role == "admin"

/-- database.py, EmailLog audit row as appended by log_email_sent. -/
structure EmailLogRec where
  user_id : Nat
  user_email : String
  user_name : String
  subject : String
  status : String
  error_message : Option String
  events_count : Nat
  fetch_days : Nat
  deriving DecidableEq, Repr

/-- database.py, log_email_sent: appends one EmailLog row (the DB commit
is assumed to succeed; on commit failure the source swallows the error). -/
def log_email_sent (uid : Nat) (user_email user_name subject status : String)
    (error_message : Option String) (events_count fetch_days : Nat)
    (log : List EmailLogRec) : List EmailLogRec :=
  log ++ [{ user_id := uid, user_email := user_email, user_name := user_name,
            subject := subject, status := status, error_message := error_message,
            events_count := events_count, fetch_days := fetch_days }]

/-- Outcome of the requests.post call to the Gmail send endpoint inside
send_email: an HTTP status with a parsed error message, a timeout, a
requests exception, or any other exception. -/
inductive GmailResp where
  | http (status : Nat) (errMsg : String)
  | timeout
  | reqExn (msg : String)
  | exn (msg : String)
  deriving DecidableEq, Repr

/-- Oracle environment of one send_email call: the access token that
get_valid_token yields for the sender (None models both a missing token
dict and a falsy access_token field) and the Gmail response. -/
structure SendEnv where
  token : Option String
  resp : GmailResp
  deriving DecidableEq, Repr

/-- agent.py, send_email: every branch writes exactly one EmailLog row via
log_email_sent and returns True only on HTTP 200. -/
def send_email (env : SendEnv) (to_email subject : String) (uid : Nat)
    (user_name : String) (events_count fetch_days : Nat)
    (log : List EmailLogRec) : Bool × List EmailLogRec :=
  if truthyS env.token = false then
    (false, log_email_sent uid to_email user_name subject "failed"
      (some "No valid OAuth token") events_count fetch_days log)
  else
    match env.resp with
    | .http status errMsg =>
      if status = 200 then
        (true, log_email_sent uid to_email user_name subject "success"
          none events_count fetch_days log)
      else if status = 403 then
        (false, log_email_sent uid to_email user_name subject "failed"
          (some "Insufficient authentication scopes. User needs to re-authenticate with Gmail send permission.")
          events_count fetch_days log)
      else
        (false, log_email_sent uid to_email user_name subject "failed"
          (some errMsg) events_count fetch_days log)
    | .timeout =>
      (false, log_email_sent uid to_email user_name subject "failed"
        (some "Gmail API request timeout (30s)") events_count fetch_days log)
    | .reqExn m =>
      (false, log_email_sent uid to_email user_name subject "failed"
        (some ("Request failed: " ++ m)) events_count fetch_days log)
    | .exn m =>
      (false, log_email_sent uid to_email user_name subject "failed"
        (some ("Unexpected error: " ++ m)) events_count fetch_days log)

/-- Per-recipient oracle inside the fan-out loop: the result of the
calendar fetch in personalized mode (fetch_user_calendar_events catches
its own exceptions, so it returns a value, never raises), an optional
exception escaping from summary rendering to the per-recipient handler,
and the environment of the send_email call. Events are modelled by their
payload strings; only their count reaches the audit log. -/
structure RecipWorld where
  personalFetch : Option (List String)
  renderExn : Option String
  send : SendEnv
  deriving Repr

/-- Aggregate result dict of send_email_to_users. -/
structure FanoutRes where
  total : Nat
  success : Nat
  failed : Nat
  deriving DecidableEq, Repr

/-- Python truthiness of an optional integer. -/
def truthyN : Option Nat → Bool
  | none => false
  | some n => n != 0

/-- Python expression (user.fetch_days or 7) combined with the
fetch_days_ahead override branch of the loop. -/
def userFetchDays (fda : Option Nat) (u : PyUser) : Nat :=
  if truthyN fda then fda.getD 7
  else match u.fetch_days with
       | some n => if n = 0 then 7 else n
       | none => 7

/-- agent.py, send_email_to_users recipient resolution: an explicit truthy
id list is filtered verbatim, otherwise all users, optionally dropping
admins. -/
def resolveUsers (db_users : List PyUser) (user_ids : Option (List Nat))
    (include_admins : Bool) : List PyUser :=
  match user_ids with
  | some ids =>
    if ids.isEmpty then
      if include_admins then db_users else db_users.filter (fun u => !u.is_admin)
    else db_users.filter (fun u => ids.contains u.id)
  | none =>
    if include_admins then db_users else db_users.filter (fun u => !u.is_admin)

/-- Body of the per-recipient loop of send_email_to_users. bcastMode is
the truthiness of broadcast_from_user_id; bevents is broadcast_events.
The except arm around the body catches a rendering exception and logs it
as that recipient's failure. -/
def processUser (bcastMode : Bool) (bevents : Option (List String))
    (fda : Option Nat) (dateStr : String) (w : Nat → RecipWorld)
    (acc : FanoutRes × List EmailLogRec) (u : PyUser) :
    FanoutRes × List EmailLogRec :=
  let d := userFetchDays fda u
  let rw := w u.id
  let res := acc.1
  let log := acc.2
  let afterFetch : List String → FanoutRes × List EmailLogRec := fun evs =>
    match rw.renderExn with
    | some e =>
      ({ res with failed := res.failed + 1 },
       log_email_sent u.id u.email u.name ("📅 Calendar Summary - " ++ dateStr)
         "failed" (some e) 0 d log)
    | none =>
      let subject :=
        if bcastMode then "📅 Team Calendar Update - " ++ dateStr
        else "📅 Your " ++ toString d ++ "-Day Calendar Summary - " ++ dateStr
      let sent := send_email rw.send u.email subject u.id u.name evs.length d log
      if sent.1 then ({ res with success := res.success + 1 }, sent.2)
      else ({ res with failed := res.failed + 1 }, sent.2)
  match bcastMode, bevents with
  | true, some evs => afterFetch evs
  | _, _ =>
    match rw.personalFetch with
    | none =>
      ({ res with failed := res.failed + 1 },
       log_email_sent u.id u.email u.name ("📅 Calendar Summary - " ++ dateStr)
         "failed" (some "Failed to fetch calendar events") 0 d log)
    | some evs => afterFetch evs

/-- The fold over resolved recipients in send_email_to_users. -/
def fanoutLoop (bcastMode : Bool) (bevents : Option (List String))
    (fda : Option Nat) (dateStr : String) (w : Nat → RecipWorld)
    (us : List PyUser) (acc : FanoutRes × List EmailLogRec) :
    FanoutRes × List EmailLogRec :=
  us.foldl (processUser bcastMode bevents fda dateStr w) acc

/-- agent.py, send_email_to_users: resolves recipients, short-circuits an
empty set, pre-fetches the broadcast source events when
broadcast_from_user_id is truthy and the source user exists (aborting the
whole run with every recipient failed when that fetch returns None), and
otherwise folds the per-recipient body over the recipients. bfetch is the
oracle result of the single broadcast fetch; dateStr models the formatted
current date used in subjects. -/
def send_email_to_users (db_users : List PyUser) (user_ids : Option (List Nat))
    (bfrom : Option Nat) (include_admins : Bool) (fda : Option Nat)
    (bfetch : Option (List String)) (w : Nat → RecipWorld) (dateStr : String)
    (log : List EmailLogRec) : FanoutRes × List EmailLogRec :=
  let users := resolveUsers db_users user_ids include_admins
  if users.isEmpty then ({ total := 0, success := 0, failed := 0 }, log)
  else
    if truthyN bfrom then
      match db_users.find? (fun u => bfrom == some u.id) with
      | some _ =>
        match bfetch with
        | none => ({ total := users.length, success := 0, failed := users.length }, log)
        | some bevs =>
          fanoutLoop true (some bevs) fda dateStr w users
            ({ total := users.length, success := 0, failed := 0 }, log)
      | none =>
        fanoutLoop true none fda dateStr w users
          ({ total := users.length, success := 0, failed := 0 }, log)
    else
      fanoutLoop false none fda dateStr w users
        ({ total := users.length, success := 0, failed := 0 }, log)

/-! ### database.py : ScheduledJob, functions.py : registrar -/

/-- database.py, ScheduledJob row (the fields the claims concern). -/
structure JobRec where
  job_id : String
  status : String
  completed_at : Option Int
  deriving DecidableEq, Repr

/-- Joint state of the ScheduledJob table and the APScheduler registry of
date-trigger ids. -/
structure SchedState where
  jobs : List JobRec
  triggers : List String
  deriving DecidableEq, Repr

/-- scheduler.add_job with replace_existing=True: registers the trigger
id, replacing any existing registration of the same id. -/
def registerTrigger (jid : String) (st : SchedState) : SchedState :=
  { st with triggers := jid :: st.triggers.filter (fun x => x != jid) }

/-- database.py, create_scheduled_job: inserts a pending row; the commit
raises (modelled as none) when the unique job_id already exists. -/
def create_scheduled_job (jid : String) (st : SchedState) : Option SchedState :=
  if (st.jobs.find? (fun j => j.job_id == jid)).isSome then none
  else some { st with jobs := st.jobs ++ [{ job_id := jid, status := "pending", completed_at := none }] }

/-- database.py, update_job_status: unconditionally overwrites the status
of the first row with the given job_id (and completed_at when truthy). -/
def update_job_status (jid status : String) (completed_at : Option Int)
    (st : SchedState) : SchedState :=
  let f : JobRec → JobRec := fun j =>
    { j with status := status,
             completed_at := match completed_at with
                             | some t => some t
                             | none => j.completed_at }
  { st with jobs := updateFirst (fun j => j.job_id == jid) f st.jobs }

/-- database.py, cancel_scheduled_job: unconditionally sets the status of
the row to cancelled when the row exists. -/
def cancel_scheduled_job (jid : String) (st : SchedState) : Bool × SchedState :=
  let f : JobRec → JobRec := fun j => { j with status := "cancelled" }
  if (st.jobs.find? (fun j => j.job_id == jid)).isSome then
    (true, { st with jobs := updateFirst (fun j => j.job_id == jid) f st.jobs })
  else (false, st)

/-- Job id string built by schedule_email_job from the UTC timestamp and
the creator id. -/
def mkJobId (ts : Int) (created_by : Nat) : String :=
  "scheduled_" ++ toString ts ++ "_" ++ toString created_by

/-- functions.py, schedule_email_job. parseDays models int(fetch_days)
(none when the conversion raises); parseTime models the strptime plus
timezone normalization to a UTC timestamp (none when parsing raises).
Validation runs before any side effect; on the success path the trigger
is registered first and the row persisted second, and a duplicate job_id
makes the insert raise, which the outer except turns into a failure
return that leaves the already-registered trigger in place. -/
def schedule_email_job (parseDays : Option Int) (parseTime : Option Int)
    (now : Int) (created_by : Nat) (st : SchedState) :
    (Bool × String) × SchedState :=
  match parseDays with
  | none => ((false, "Invalid days value"), st)
  | some d =>
    if d < 1 ∨ d > 365 then ((false, "Days must be between 1 and 365"), st)
    else
      match parseTime with
      | none => ((false, "time data does not match format"), st)
      | some t =>
        if t ≤ now then ((false, "⚠️ Please select a future date & time!"), st)
        else
          let jid := mkJobId t created_by
          let st1 := registerTrigger jid st
          match create_scheduled_job jid st1 with
          | none => ((false, "UNIQUE constraint failed: scheduled_jobs.job_id"), st1)
          | some st2 => ((true, "✅ Email scheduled!"), st2)

/-- functions.py, cancel_job: scheduler.remove_job raises when the id is
not registered (the except arm then leaves everything unchanged);
otherwise the trigger is removed and cancel_scheduled_job runs. -/
def cancel_job (jid : String) (st : SchedState) : Bool × SchedState :=
  if st.triggers.contains jid then
    let st1 := { st with triggers := st.triggers.filter (fun x => x != jid) }
    (true, (cancel_scheduled_job jid st1).2)
  else (false, st)

/-- One operation of the registrar transition system: an admin schedule
request, the external date trigger firing a registered job (APScheduler
removes a fired date job from the registry; the callback then marks the
row completed, or failed when the orchestrator call raised), or an admin
cancel request. -/
inductive RegOp where
  | schedule (parseDays parseTime : Option Int) (now : Int) (created_by : Nat)
  | fire (jid : String) (ok : Bool) (finishedAt : Int)
  | cancel (jid : String)
  deriving DecidableEq, Repr

/-- Step function of the registrar transition system. -/
def regStep (st : SchedState) : RegOp → SchedState
  | .schedule pd pt now cb => (schedule_email_job pd pt now cb st).2
  | .fire jid ok t =>
    if st.triggers.contains jid then
      let st1 := { st with triggers := st.triggers.filter (fun x => x != jid) }
      update_job_status jid (if ok then "completed" else "failed") (some t) st1
    else st
  | .cancel jid => (cancel_job jid st).2

/-- Execution of a list of registrar operations. -/
def regExec (st : SchedState) (ops : List RegOp) : SchedState :=
  ops.foldl regStep st

/-- Status of a job row in a state. -/
def jobStatus (st : SchedState) (jid : String) : Option String :=
  (st.jobs.find? (fun j => j.job_id == jid)).map (fun j => j.status)

/-- Invariant: every job row whose id is still registered as a trigger is
pending. -/
def regInv (st : SchedState) : Bool :=
  st.jobs.all (fun j => !(st.triggers.contains j.job_id) || j.status == "pending")

/-- A schedule operation is collision-free in a state when, whenever its
validation would pass, the job id it would create is not already a
persisted row. -/
def schedFresh (st : SchedState) : RegOp → Bool
  | .schedule pd pt now cb =>
    match pd, pt with
    | some d, some t =>
      if 1 ≤ d ∧ d ≤ 365 ∧ now < t then
        st.jobs.all (fun j => j.job_id != mkJobId t cb)
      else true
    | _, _ => true
  | _ => true

/-- A run of operations is good when every schedule step is
collision-free in the state where it executes. -/
def goodRun (st : SchedState) : List RegOp → Bool
  | [] => true
  | op :: ops => schedFresh st op && goodRun (regStep st op) ops

/-! ### agent.py : time formatting

The source calls datetime.fromisoformat (after replacing Z with +00:00)
and strftime. Both are modelled here: the parser follows the documented
pre-3.11 fromisoformat grammar YYYY-MM-DD[*HH[:MM[:SS[.fff[fff]]]]
[+HH:MM[:SS]]] with calendar validation (offsets with fractional seconds
are not modelled), and the strftime directives %I %M %p %A %b %d are
rendered from tables. -/

/-- Datetime value produced by the parser (wall-clock fields; a parsed
offset is validated and discarded, which is what strftime sees). -/
structure PyDateTime where
  year : Nat
  month : Nat
  day : Nat
  hour : Nat
  minute : Nat
  second : Nat
  deriving DecidableEq, Repr

/-- Decimal digit test. -/
def isDig (c : Char) : Bool := '0' ≤ c && c ≤ '9'

/-- Decimal digit value. -/
def digVal (c : Char) : Nat := c.toNat - '0'.toNat

/-- Read exactly two digits. -/
def read2 : List Char → Option (Nat × List Char)
  | a :: b :: rest =>
    if isDig a && isDig b then some (digVal a * 10 + digVal b, rest) else none
  | _ => none

/-- Read exactly four digits. -/
def read4 : List Char → Option (Nat × List Char)
  | a :: b :: c :: d :: rest =>
    if isDig a && isDig b && isDig c && isDig d then
      some (((digVal a * 10 + digVal b) * 10 + digVal c) * 10 + digVal d, rest)
    else none
  | _ => none

/-- Optional fractional-seconds part: either absent, or a dot followed by
exactly three or six digits. -/
def readFracOpt : List Char → Option (List Char)
  | '.' :: rest =>
    let ds := rest.takeWhile isDig
    if ds.length = 3 ∨ ds.length = 6 then some (rest.drop ds.length) else none
  | l => some l

/-- UTC-offset suffix after the sign: HH:MM with an optional :SS, running
to the end of the input. -/
def offsetTail (l : List Char) : Bool :=
  match read2 l with
  | some (hh, ':' :: r1) =>
    match read2 r1 with
    | some (mm, r2) =>
      if hh ≤ 23 && mm ≤ 59 then
        match r2 with
        | [] => true
        | ':' :: r3 =>
          match read2 r3 with
          | some (ss, r4) => ss ≤ 59 && r4.isEmpty
          | none => false
        | _ => false
      else false
    | none => false
  | _ => false

/-- The remainder after the time of day: either nothing or a signed
offset. -/
def offsetOkOrEnd : List Char → Bool
  | [] => true
  | '+' :: rest => offsetTail rest
  | '-' :: rest => offsetTail rest
  | _ => false

/-- Time-of-day part HH[:MM[:SS[.frac]]] followed by an optional offset. -/
def parseTimeOfDay (l : List Char) : Option (Nat × Nat × Nat) :=
  match read2 l with
  | none => none
  | some (hh, r1) =>
    match r1 with
    | ':' :: r2 =>
      match read2 r2 with
      | none => none
      | some (mm, r3) =>
        match r3 with
        | ':' :: r4 =>
          match read2 r4 with
          | none => none
          | some (ss, r5) =>
            match readFracOpt r5 with
            | none => none
            | some r6 => if offsetOkOrEnd r6 then some (hh, mm, ss) else none
        | _ => if offsetOkOrEnd r3 then some (hh, mm, 0) else none
    | _ => if offsetOkOrEnd r1 then some (hh, 0, 0) else none

/-- Syntactic layer of fromisoformat: date, then optionally one separator
character (any character) and a time of day. -/
def parseFields (l : List Char) : Option (Nat × Nat × Nat × Nat × Nat × Nat) :=
  match read4 l with
  | some (y, '-' :: r1) =>
    match read2 r1 with
    | some (mo, '-' :: r2) =>
      match read2 r2 with
      | some (dy, r3) =>
        match r3 with
        | [] => some (y, mo, dy, 0, 0, 0)
        | _sep :: r4 =>
          (parseTimeOfDay r4).map (fun x => (y, mo, dy, x.1, x.2.1, x.2.2))
      | none => none
    | _ => none
  | _ => none

/-- Gregorian leap year. -/
def isLeap (y : Nat) : Bool := (y % 4 = 0 && y % 100 ≠ 0) || y % 400 = 0

/-- Number of days in a month. -/
def daysInMonth (y m : Nat) : Nat :=
  if m = 2 then (if isLeap y then 29 else 28)
  else if m = 4 ∨ m = 6 ∨ m = 9 ∨ m = 11 then 30
  else 31

/-- Semantic layer of fromisoformat: calendar and clock validation. -/
def mkDT (y mo dy h mi se : Nat) : Option PyDateTime :=
  if 1 ≤ y ∧ y ≤ 9999 ∧ 1 ≤ mo ∧ mo ≤ 12 ∧ 1 ≤ dy ∧ dy ≤ daysInMonth y mo
      ∧ h ≤ 23 ∧ mi ≤ 59 ∧ se ≤ 59 then
    some { year := y, month := mo, day := dy, hour := h, minute := mi, second := se }
  else none

/-- datetime.fromisoformat. -/
def pyFromISO (s : String) : Option PyDateTime :=
  match parseFields s.data with
  | none => none
  | some x => mkDT x.1 x.2.1 x.2.2.1 x.2.2.2.1 x.2.2.2.2.1 x.2.2.2.2.2

/-- The Python expression time_str.replace applied to Z and +00:00. -/
def replaceZ (s : String) : String :=
  String.mk (s.data.foldr
    (fun c acc => (if c = 'Z' then ['+', '0', '0', ':', '0', '0'] else [c]) ++ acc) [])

/-- The Python test quote-T-quote in time_str. -/
def containsT (s : String) : Bool := s.data.contains 'T'

/-- Decimal digits of a natural number. -/
def natChars (n : Nat) : List Char := (Nat.repr n).data

/-- Zero-padded two-digit rendering (strftime %M, %d, %I before
stripping). -/
def pad2c (n : Nat) : List Char := if n < 10 then '0' :: natChars n else natChars n

/-- Twelve-hour clock value of an hour (strftime %I as a number). -/
def hour12 (h : Nat) : Nat := if h % 12 = 0 then 12 else h % 12

/-- strftime %p. -/
def ampmChars (h : Nat) : List Char := if h < 12 then ['A', 'M'] else ['P', 'M']

/-- strftime with format %I:%M %p. -/
def strf_IMp (dt : PyDateTime) : List Char :=
  pad2c (hour12 dt.hour) ++ ':' :: pad2c dt.minute ++ ' ' :: ampmChars dt.hour

/-- str.lstrip applied to the zero character. -/
def lstrip0 (l : List Char) : List Char := l.dropWhile (fun c => c = '0')

/-- agent.py, format_time_12hr. -/
def format_time_12hr (s : String) : String :=
  if containsT s then
    match pyFromISO (replaceZ s) with
    | some dt => String.mk (lstrip0 (strf_IMp dt))
    | none => s
  else "All Day"

/-- Sakamoto weekday table. -/
def sakamotoT : List Nat := [0, 3, 2, 5, 0, 3, 5, 1, 4, 6, 2, 4]

/-- Day of the week, 0 = Sunday (Sakamoto congruence, matching the
proleptic Gregorian weekday that Python computes). -/
def dayOfWeek (y m d : Nat) : Nat :=
  let y1 := y - (if m < 3 then 1 else 0)
  (y1 + y1 / 4 + y1 / 400 + sakamotoT.getD (m - 1) 0 + d - y1 / 100) % 7

/-- strftime %A table. -/
def weekdayNames : List String :=
  ["Sunday", "Monday", "Tuesday", "Wednesday", "Thursday", "Friday", "Saturday"]

/-- strftime %A. -/
def weekdayName (i : Nat) : String := weekdayNames.getD i "Sunday"

/-- strftime %b table. -/
def monthAbbrevs : List String :=
  ["Jan", "Feb", "Mar", "Apr", "May", "Jun", "Jul", "Aug", "Sep", "Oct", "Nov", "Dec"]

/-- strftime %b. -/
def monthAb (m : Nat) : String := monthAbbrevs.getD (m - 1) "Jan"

/-- strftime with format %A, %b %d at %I:%M %p. -/
def strfFullT (dt : PyDateTime) : List Char :=
  (weekdayName (dayOfWeek dt.year dt.month dt.day)).data
    ++ ',' :: ' ' :: (monthAb dt.month).data
    ++ ' ' :: pad2c dt.day
    ++ ' ' :: 'a' :: 't' :: ' ' :: pad2c (hour12 dt.hour)
    ++ ':' :: pad2c dt.minute
    ++ ' ' :: ampmChars dt.hour

/-- strftime with format %A, %b %d (All Day). -/
def strfFullD (dt : PyDateTime) : List Char :=
  (weekdayName (dayOfWeek dt.year dt.month dt.day)).data
    ++ ',' :: ' ' :: (monthAb dt.month).data
    ++ ' ' :: pad2c dt.day
    ++ ' ' :: '(' :: 'A' :: 'l' :: 'l' :: ' ' :: 'D' :: 'a' :: 'y' :: [')']

/-- Test that a char list starts with a nonzero character. -/
def headNonzero : List Char → Bool
  | [] => false
  | c :: _ => c != '0'

/-- Test that a char list contains an occurrence of space followed by
zero (the pattern replaced by the source). -/
def hasSp0 : List Char → Bool
  | [] => false
  | [_] => false
  | c1 :: c2 :: rest => if c1 = ' ' ∧ c2 = '0' then true else hasSp0 (c2 :: rest)

/-- The Python expression str.replace applied to space-zero and space:
replaces every non-overlapping occurrence, scanning left to right. -/
def replSp0 : List Char → List Char
  | [] => []
  | [c] => [c]
  | c1 :: c2 :: rest =>
    if c1 = ' ' ∧ c2 = '0' then ' ' :: replSp0 rest
    else c1 :: replSp0 (c2 :: rest)

/-- agent.py, format_datetime_full. -/
def format_datetime_full (s : String) : String :=
  if containsT s then
    match pyFromISO (replaceZ s) with
    | some dt => String.mk (replSp0 (strfFullT dt))
    | none => s
  else
    match pyFromISO s with
    | some dt => String.mk (strfFullD dt)
    | none => s

/-- Modelled from the spec: the time label required by the specification,
twelve-hour time with no leading zero on the hour (for example 9:00 AM). -/
def specTimeLabel (h mi : Nat) : String :=
  String.mk (natChars (hour12 h) ++ ':' :: pad2c mi ++ ' ' :: ampmChars h)

/-! ### Concrete example values used by witnesses and counterexamples -/

/-- A failed provider exchange outcome. -/
def providerFailsB : ProviderResp → Bool
  | .exn _ => true
  | .http status _ => status != 200

/-- Example stored token row of user 1, expired at time 10. -/
def exTok : TokenRec :=
  { user_id := 1, access_token := some (idCipher.enc "AT_OLD"),
    refresh_token := some (idCipher.enc "RT_OLD"), expires_at := 0, updated_at := 0 }

/-- Example token store. -/
def exDB : List TokenRec := [exTok]

/-- Example provider response body carrying a rotated refresh token. -/
def exBody : TokenBody :=
  { access_token := some "AT_NEW", refresh_token := some "RT_ROT", expires_in := some 3600 }

/-- Example successful provider response with rotation. -/
def exResp : ProviderResp := .http 200 exBody

/-- Example user row: an admin with a three-day preference. -/
def exU1 : PyUser :=
  { id := 1, email := "a@x.com", name := "Alice", role := "admin", fetch_days := some 3 }

/-- Example user row: a regular user with no stored preference. -/
def exU2 : PyUser :=
  { id := 2, email := "b@x.com", name := "Bob", role := "user", fetch_days := none }

/-- Example user rows for orchestrator witnesses. -/
def exUsers : List PyUser := [exU1, exU2]

/-- Condition of the broadcast short-circuit in send_email_to_users:
recipients resolved nonempty, truthy broadcast source id, source user
found, and the single broadcast fetch failed. -/
def shortCircuitB (db_users : List PyUser) (user_ids : Option (List Nat))
    (bfrom : Option Nat) (include_admins : Bool) (bfetch : Option (List String)) : Bool :=
  !(resolveUsers db_users user_ids include_admins).isEmpty
    && truthyN bfrom
    && (db_users.find? (fun u => bfrom == some u.id)).isSome
    && bfetch.isNone

/-- Example per-recipient world: user 1 sends successfully, user 2 hits a
rendering exception. -/
def exWorld : Nat → RecipWorld := fun uid =>
  if uid = 1 then
    { personalFetch := some ["standup"], renderExn := none,
      send := { token := some "tok", resp := .http 200 "" } }
  else
    { personalFetch := some ["standup"], renderExn := some "boom",
      send := { token := some "tok", resp := .http 200 "" } }

/-- Example registrar operation: a valid schedule request at time 0 firing
at time 100, by admin 1. -/
def exSched : RegOp := .schedule (some 7) (some 100) 0 1

/-- Job id of the example schedule request. -/
def exJid : String := mkJobId 100 1

/-- The registrar operation sequence refuting the raw claim C8: schedule,
cancel, schedule the same slot again (same job id, so the row insert
fails but the trigger is re-registered), then the trigger fires. -/
def exBadOps : List RegOp := [exSched, .cancel exJid, exSched, .fire exJid true 100]

/-- Empty registrar state. -/
def regInit : SchedState := { jobs := [], triggers := [] }

/-! ## Helper lemmas -/

theorem find?_updateFirst_map {α : Type} (p : α → Bool) (f : α → α)
    (hp : ∀ x, p (f x) = p x) (l : List α) :
    List.find? p (updateFirst p f l) = (List.find? p l).map f := by
  induction l with
  | nil => rfl
  | cons x xs ih =>
    by_cases hx : p x = true
    · simp [updateFirst, hx, List.find?_cons_of_pos, hp]
    · rw [updateFirst, if_neg (by simp [hx])]
      rw [List.find?_cons_of_neg _ (by simp [hx]), List.find?_cons_of_neg _ (by simp [hx]), ih]

theorem find?_updateFirst_other {α : Type} (p q : α → Bool) (f : α → α)
    (hpq : ∀ x, q x = true → p x = false) (hpf : ∀ x, p (f x) = p x) (l : List α) :
    List.find? p (updateFirst q f l) = List.find? p l := by
  induction l with
  | nil => rfl
  | cons x xs ih =>
    by_cases hx : q x = true
    · rw [updateFirst, if_pos hx]
      rw [List.find?_cons_of_neg _ (by simp [hpf, hpq x hx]),
          List.find?_cons_of_neg _ (by simp [hpq x hx])]
    · rw [updateFirst, if_neg (by simp [hx])]
      by_cases hpx : p x = true
      · rw [List.find?_cons_of_pos _ hpx, List.find?_cons_of_pos _ hpx]
      · rw [List.find?_cons_of_neg _ (by simp [hpx]), List.find?_cons_of_neg _ (by simp [hpx]), ih]

theorem send_email_one_log (env : SendEnv) (to_email subject : String) (uid : Nat)
    (user_name : String) (events_count fetch_days : Nat) (log : List EmailLogRec) :
    ∃ rec : EmailLogRec,
      (send_email env to_email subject uid user_name events_count fetch_days log).2 = log ++ [rec]
      ∧ ((send_email env to_email subject uid user_name events_count fetch_days log).1 = true
            ∧ rec.status = "success"
        ∨ (send_email env to_email subject uid user_name events_count fetch_days log).1 = false
            ∧ rec.status = "failed") := by
  unfold send_email
  by_cases ht : truthyS env.token = false
  · rw [if_pos ht]
    exact ⟨_, rfl, Or.inr ⟨rfl, rfl⟩⟩
  · rw [if_neg ht]
    cases env.resp with
    | http status errMsg =>
      dsimp only
      by_cases h2 : status = 200
      · rw [if_pos h2]
        exact ⟨_, rfl, Or.inl ⟨rfl, rfl⟩⟩
      · rw [if_neg h2]
        by_cases h4 : status = 403
        · rw [if_pos h4]
          exact ⟨_, rfl, Or.inr ⟨rfl, rfl⟩⟩
        · rw [if_neg h4]
          exact ⟨_, rfl, Or.inr ⟨rfl, rfl⟩⟩
    | timeout => exact ⟨_, rfl, Or.inr ⟨rfl, rfl⟩⟩
    | reqExn m => exact ⟨_, rfl, Or.inr ⟨rfl, rfl⟩⟩
    | exn m => exact ⟨_, rfl, Or.inr ⟨rfl, rfl⟩⟩

theorem processUser_one (bm : Bool) (bev : Option (List String)) (fda : Option Nat)
    (ds : String) (w : Nat → RecipWorld) (acc : FanoutRes × List EmailLogRec) (u : PyUser) :
    ∃ rec : EmailLogRec,
      (processUser bm bev fda ds w acc u).2 = acc.2 ++ [rec]
      ∧ (processUser bm bev fda ds w acc u).1.total = acc.1.total
      ∧ ((processUser bm bev fda ds w acc u).1.success = acc.1.success + 1
          ∧ (processUser bm bev fda ds w acc u).1.failed = acc.1.failed
          ∧ rec.status = "success"
        ∨ (processUser bm bev fda ds w acc u).1.success = acc.1.success
          ∧ (processUser bm bev fda ds w acc u).1.failed = acc.1.failed + 1
          ∧ rec.status = "failed") := by
  simp only [processUser]
  cases bm with
  | true =>
    cases bev with
    | some evs =>
      cases hre : (w u.id).renderExn with
      | some e => exact ⟨_, rfl, rfl, Or.inr ⟨rfl, rfl, rfl⟩⟩
      | none =>
        obtain ⟨rec, hlog, hst⟩ := send_email_one_log (w u.id).send u.email
          ("📅 Team Calendar Update - " ++ ds) u.id u.name evs.length
          (userFetchDays fda u) acc.2
        rcases hst with ⟨h1, hs⟩ | ⟨h1, hs⟩
        · exact ⟨rec, by simp [h1, hlog], by simp [h1], Or.inl ⟨by simp [h1], by simp [h1], hs⟩⟩
        · exact ⟨rec, by simp [h1, hlog], by simp [h1], Or.inr ⟨by simp [h1], by simp [h1], hs⟩⟩
    | none =>
      cases hpf : (w u.id).personalFetch with
      | none => exact ⟨_, rfl, rfl, Or.inr ⟨rfl, rfl, rfl⟩⟩
      | some evs =>
        cases hre : (w u.id).renderExn with
        | some e => exact ⟨_, rfl, rfl, Or.inr ⟨rfl, rfl, rfl⟩⟩
        | none =>
          obtain ⟨rec, hlog, hst⟩ := send_email_one_log (w u.id).send u.email
            ("📅 Team Calendar Update - " ++ ds) u.id u.name evs.length
            (userFetchDays fda u) acc.2
          rcases hst with ⟨h1, hs⟩ | ⟨h1, hs⟩
          · exact ⟨rec, by simp [h1, hlog], by simp [h1], Or.inl ⟨by simp [h1], by simp [h1], hs⟩⟩
          · exact ⟨rec, by simp [h1, hlog], by simp [h1], Or.inr ⟨by simp [h1], by simp [h1], hs⟩⟩
  | false =>
    cases bev with
    | some evs0 =>
      cases hpf : (w u.id).personalFetch with
      | none => exact ⟨_, rfl, rfl, Or.inr ⟨rfl, rfl, rfl⟩⟩
      | some evs =>
        cases hre : (w u.id).renderExn with
        | some e => exact ⟨_, rfl, rfl, Or.inr ⟨rfl, rfl, rfl⟩⟩
        | none =>
          obtain ⟨rec, hlog, hst⟩ := send_email_one_log (w u.id).send u.email
            ("📅 Your " ++ toString (userFetchDays fda u) ++ "-Day Calendar Summary - " ++ ds)
            u.id u.name evs.length (userFetchDays fda u) acc.2
          rcases hst with ⟨h1, hs⟩ | ⟨h1, hs⟩
          · exact ⟨rec, by simp [h1, hlog], by simp [h1], Or.inl ⟨by simp [h1], by simp [h1], hs⟩⟩
          · exact ⟨rec, by simp [h1, hlog], by simp [h1], Or.inr ⟨by simp [h1], by simp [h1], hs⟩⟩
    | none =>
      cases hpf : (w u.id).personalFetch with
      | none => exact ⟨_, rfl, rfl, Or.inr ⟨rfl, rfl, rfl⟩⟩
      | some evs =>
        cases hre : (w u.id).renderExn with
        | some e => exact ⟨_, rfl, rfl, Or.inr ⟨rfl, rfl, rfl⟩⟩
        | none =>
          obtain ⟨rec, hlog, hst⟩ := send_email_one_log (w u.id).send u.email
            ("📅 Your " ++ toString (userFetchDays fda u) ++ "-Day Calendar Summary - " ++ ds)
            u.id u.name evs.length (userFetchDays fda u) acc.2
          rcases hst with ⟨h1, hs⟩ | ⟨h1, hs⟩
          · exact ⟨rec, by simp [h1, hlog], by simp [h1], Or.inl ⟨by simp [h1], by simp [h1], hs⟩⟩
          · exact ⟨rec, by simp [h1, hlog], by simp [h1], Or.inr ⟨by simp [h1], by simp [h1], hs⟩⟩

theorem fanoutLoop_spec (bm : Bool) (bev : Option (List String)) (fda : Option Nat)
    (ds : String) (w : Nat → RecipWorld) (us : List PyUser) :
    ∀ acc : FanoutRes × List EmailLogRec,
      (fanoutLoop bm bev fda ds w us acc).1.total = acc.1.total
      ∧ (fanoutLoop bm bev fda ds w us acc).1.success + (fanoutLoop bm bev fda ds w us acc).1.failed
          = acc.1.success + acc.1.failed + us.length
      ∧ ∃ recs : List EmailLogRec,
          (fanoutLoop bm bev fda ds w us acc).2 = acc.2 ++ recs
          ∧ recs.length = us.length
          ∧ (fanoutLoop bm bev fda ds w us acc).1.success
              = acc.1.success + recs.countP (fun rec => rec.status == "success")
          ∧ (fanoutLoop bm bev fda ds w us acc).1.failed
              = acc.1.failed + recs.countP (fun rec => rec.status == "failed") := by
  induction us with
  | nil =>
    intro acc
    exact ⟨rfl, by simp [fanoutLoop], [], by simp [fanoutLoop], rfl, by simp [fanoutLoop], by simp [fanoutLoop]⟩
  | cons u us ih =>
    intro acc
    obtain ⟨rec, hlog, htot, hcase⟩ := processUser_one bm bev fda ds w acc u
    obtain ⟨htot2, hsum2, recs, hlog2, hlen2, hs2, hf2⟩ := ih (processUser bm bev fda ds w acc u)
    have hfl : fanoutLoop bm bev fda ds w (u :: us) acc
        = fanoutLoop bm bev fda ds w us (processUser bm bev fda ds w acc u) := rfl
    rw [hfl]
    refine ⟨by rw [htot2, htot], ?_, rec :: recs, ?_, by simp [hlen2], ?_, ?_⟩
    · rcases hcase with ⟨h1, h2, _⟩ | ⟨h1, h2, _⟩ <;>
      · rw [hsum2, h1, h2]
        simp only [List.length_cons]
        omega
    · rw [hlog2, hlog]
      simp
    · rcases hcase with ⟨h1, _, hs⟩ | ⟨h1, _, hs⟩ <;>
      · rw [hs2, h1]
        simp [List.countP_cons, hs]
        all_goals omega
    · rcases hcase with ⟨_, h2, hs⟩ | ⟨_, h2, hs⟩ <;>
      · rw [hf2, h2]
        simp [List.countP_cons, hs]
        all_goals omega

/-! ## Claim theorems -/

/-- C10: decrypt_token inverts encrypt_token on every nonempty string,
and both primitives map falsy inputs (None and the empty value) to None
instead of raising. -/
theorem c10_token_encryption_roundtrip (c : Cipher) (s : String) (hs : s ≠ "") :
    decrypt_token c (encrypt_token c (some s)) = some s
    ∧ encrypt_token c none = none
    ∧ encrypt_token c (some "") = none
    ∧ decrypt_token c none = none := by
  refine ⟨?_, rfl, by simp [encrypt_token], rfl⟩
  simp [encrypt_token, decrypt_token, hs, c.enc_ne_nil s, c.dec_enc s]

/-- Witness for C10 at the concrete cipher and a concrete string. -/
theorem c10_witness :
    ("tok" : String) ≠ ""
    ∧ decrypt_token idCipher (encrypt_token idCipher (some "tok")) = some "tok" :=
  ⟨by decide, (c10_token_encryption_roundtrip idCipher "tok" (by decide)).1⟩

/-- C5: whenever the provider exchange fails (raised exception or any
non-200 status), refresh_access_token returns None and the token store is
returned completely unchanged (save_token is never reached). -/
theorem c5_refresh_failure_no_mutation (c : Cipher) (uid : Nat) (resp : ProviderResp)
    (now : Int) (db : List TokenRec) (h : providerFailsB resp = true) :
    refresh_access_token c uid resp now db = (none, db) := by
  cases hg : get_user_tokens c uid db with
  | none => simp [refresh_access_token, hg]
  | some td =>
    cases hr : td.refresh_token with
    | none => simp [refresh_access_token, hg, hr]
    | some r =>
      by_cases hre : r = ""
      · simp [refresh_access_token, hg, hr, hre]
      · cases resp with
        | exn m => simp [refresh_access_token, hg, hr, hre]
        | http status body =>
          have hst : status ≠ 200 := by
            simpa [providerFailsB] using h
          simp [refresh_access_token, hg, hr, hre, hst]

/-- Witness for C5 at a concrete failing response. -/
theorem c5_witness :
    providerFailsB (.http 500 exBody) = true
    ∧ refresh_access_token idCipher 1 (.http 500 exBody) 10 exDB = (none, exDB) :=
  ⟨by decide, c5_refresh_failure_no_mutation idCipher 1 (.http 500 exBody) 10 exDB (by decide)⟩

/-- C6: with a stored credential whose expiry is strictly in the future,
get_valid_token returns exactly the stored (decrypted) values and leaves
the store unchanged; the provider-response oracle is universally
quantified and absent from the right-hand side, so no network call is
consulted. -/
theorem c6_fresh_token_no_network (c : Cipher) (uid : Nat) (resp : ProviderResp)
    (now : Int) (db : List TokenRec) (t : TokenRec)
    (hf : find_token uid db = some t) (hfresh : now < t.expires_at) :
    get_valid_token c uid resp now db =
      (some { access_token := decrypt_token c t.access_token,
              refresh_token := if truthyBytes t.refresh_token then decrypt_token c t.refresh_token else none,
              expires_at := some t.expires_at,
              expires_in := none }, db) := by
  have hexp : is_token_expired uid now db = false := by
    unfold is_token_expired
    rw [hf]
    simp only [decide_eq_false_iff_not]
    omega
  unfold get_valid_token
  rw [hexp]
  simp [get_user_tokens, hf]

/-- Witness for C6 at a concrete fresh store. -/
theorem c6_witness :
    find_token 1 exDB = some exTok ∧ (-5 : Int) < exTok.expires_at
    ∧ get_valid_token idCipher 1 exResp (-5) exDB =
      (some { access_token := some "AT_OLD", refresh_token := some "RT_OLD",
              expires_at := some 0, expires_in := none }, exDB) := by
  refine ⟨by decide, by decide, ?_⟩
  have h := c6_fresh_token_no_network idCipher 1 exResp (-5) exDB exTok (by decide) (by decide)
  rw [h]
  decide

/-- C4 counterexample: the provider response carries a rotated refresh
token RT_ROT, yet after a successful exchange the persisted refresh
credential still decrypts to the previously stored RT_OLD, so the
persisted refresh token is not the provider-rotated one. -/
theorem c4_counterexample :
    exBody.refresh_token = some "RT_ROT"
    ∧ ((refresh_access_token idCipher 1 exResp 10 exDB).2.find?
        (fun t => t.user_id == 1)).map (fun t => decrypt_token idCipher t.refresh_token)
      = some (some "RT_OLD")
    ∧ ("RT_OLD" : String) ≠ "RT_ROT" := by
  refine ⟨rfl, ?_, by decide⟩
  decide

/-- C4 amended: on a successful exchange for an expired credential the
function persists and returns a credential whose access token is the
provider's new token and whose expiry, now plus the provider-reported
lifetime, is strictly later than the old one; the persisted refresh token
is always the previously stored refresh token, even when the provider
returned a rotated one, which the code ignores. -/
theorem c4_refresh_persists_old_refresh
    (c : Cipher) (uid : Nat) (now ei : Int) (db : List TokenRec)
    (t0 : TokenRec) (r a : String) (body : TokenBody)
    (hfind : find_token uid db = some t0)
    (hrt : truthyBytes t0.refresh_token = true)
    (hr : decrypt_token c t0.refresh_token = some r)
    (hrne : r ≠ "")
    (hbody : body.access_token = some a)
    (hane : a ≠ "")
    (hei : body.expires_in = some ei)
    (heinn : 0 ≤ ei)
    (hexp : t0.expires_at < now) :
    (refresh_access_token c uid (.http 200 body) now db).1 =
      some { access_token := some a, refresh_token := some r,
             expires_at := none, expires_in := some ei }
    ∧ ∃ t1, find_token uid (refresh_access_token c uid (.http 200 body) now db).2 = some t1
        ∧ t1.access_token = some (c.enc a)
        ∧ t1.refresh_token = some (c.enc r)
        ∧ decrypt_token c t1.refresh_token = some r
        ∧ t1.expires_at = now + ei
        ∧ t0.expires_at < t1.expires_at
        ∧ t1.updated_at = now := by
  have htr : truthyS (some r) = true := by simp [truthyS, hrne]
  have hea : encrypt_token c (some a) = some (c.enc a) := by simp [encrypt_token, hane]
  have her : encrypt_token c (some r) = some (c.enc r) := by simp [encrypt_token, hrne]
  have hgut : get_user_tokens c uid db =
      some { access_token := decrypt_token c t0.access_token,
             refresh_token := decrypt_token c t0.refresh_token,
             expires_at := some t0.expires_at, expires_in := none } := by
    simp [get_user_tokens, hfind, hrt]
  have hsave : refresh_access_token c uid (.http 200 body) now db =
      (some { access_token := some a, refresh_token := some r,
              expires_at := none, expires_in := some ei },
       save_token c uid (some a) (some r) ei now db) := by
    simp [refresh_access_token, hgut, hr, hbody, hei, hrne]
  rw [hsave]
  refine ⟨rfl, ?_⟩
  have hfind2 : List.find? (fun t => t.user_id == uid) db = some t0 := hfind
  have hupd : find_token uid (save_token c uid (some a) (some r) ei now db) =
      some { t0 with
             access_token := encrypt_token c (some a)
             refresh_token := if truthyS (some r) then encrypt_token c (some r) else t0.refresh_token
             expires_at := now + ei
             updated_at := now } := by
    simp only [save_token, hfind]
    simp only [find_token]
    rw [find?_updateFirst_map (fun (t : TokenRec) => t.user_id == uid)
        (fun (t : TokenRec) =>
          { t with
            access_token := encrypt_token c (some a)
            refresh_token := if truthyS (some r) then encrypt_token c (some r) else t.refresh_token
            expires_at := now + ei
            updated_at := now }) (fun x => rfl), hfind2]
    rfl
  refine ⟨_, hupd, ?_, ?_, ?_, rfl, ?_, rfl⟩
  · simpa [htr] using hea
  · show (if truthyS (some r) = true then encrypt_token c (some r) else t0.refresh_token) = some (c.enc r)
    rw [if_pos htr, her]
  · show decrypt_token c (if truthyS (some r) = true then encrypt_token c (some r) else t0.refresh_token) = some r
    rw [if_pos htr, her]
    simp [decrypt_token, c.enc_ne_nil r, c.dec_enc r]
  · show t0.expires_at < now + ei
    omega

/-- Witness for C4 amended at the concrete store and response. -/
theorem c4_witness :
    (refresh_access_token idCipher 1 (.http 200 exBody) 10 exDB).1 =
      some { access_token := some "AT_NEW", refresh_token := some "RT_OLD",
             expires_at := none, expires_in := some 3600 } :=
  (c4_refresh_persists_old_refresh idCipher 1 10 3600 exDB exTok "RT_OLD" "AT_NEW" exBody
    (by decide) (by decide) (by decide) (by decide) (by decide) (by decide) (by decide)
    (by decide) (by decide)).1

/-- C7: when the parsed window is outside one to 365 or the normalized
fire time is not strictly in the future, schedule_email_job returns a
failure synchronously and the joint state (ScheduledJob rows and trigger
registry) is completely unchanged: no row persisted, no trigger
registered. -/
theorem c7_validation_before_persistence
    (parseDays parseTime : Option Int) (now : Int) (created_by : Nat) (st : SchedState)
    (h : (∃ d, parseDays = some d ∧ (d < 1 ∨ d > 365))
         ∨ (∃ t, parseTime = some t ∧ t ≤ now)) :
    (schedule_email_job parseDays parseTime now created_by st).1.1 = false
    ∧ (schedule_email_job parseDays parseTime now created_by st).2 = st := by
  rcases h with ⟨d, hd, hrange⟩ | ⟨t, ht, htle⟩
  · subst hd
    simp only [schedule_email_job, if_pos hrange]
    exact ⟨trivial, trivial⟩
  · subst ht
    cases parseDays with
    | none => exact ⟨rfl, rfl⟩
    | some d =>
      by_cases hrange : d < 1 ∨ d > 365
      · simp only [schedule_email_job, if_pos hrange]
        exact ⟨trivial, trivial⟩
      · simp only [schedule_email_job, if_neg hrange, if_pos htle]
        exact ⟨trivial, trivial⟩

/-- Witness for C7 at a concrete past fire time. -/
theorem c7_witness :
    (schedule_email_job (some 7) (some 5) 10 1 regInit).1.1 = false
    ∧ (schedule_email_job (some 7) (some 5) 10 1 regInit).2 = regInit :=
  c7_validation_before_persistence (some 7) (some 5) 10 1 regInit
    (Or.inr ⟨5, rfl, by decide⟩)

/-- C1: every fan-out run returns total equal to success plus failed; in
the broadcast short-circuit case no audit record is appended and all
recipients count as failed; in every other case exactly one audit record
is appended per recipient (so the appended count equals total) and the
appended success and failed records match the aggregate counts. -/
theorem c1_fanout_accounting (db_users : List PyUser) (user_ids : Option (List Nat))
    (bfrom : Option Nat) (include_admins : Bool) (fda : Option Nat)
    (bfetch : Option (List String)) (w : Nat → RecipWorld) (dateStr : String)
    (log : List EmailLogRec) (res : FanoutRes) (outLog : List EmailLogRec)
    (hrun : send_email_to_users db_users user_ids bfrom include_admins fda bfetch w dateStr log
      = (res, outLog)) :
    res.total = res.success + res.failed
    ∧ (shortCircuitB db_users user_ids bfrom include_admins bfetch = true →
        outLog = log ∧ res.failed = res.total)
    ∧ (shortCircuitB db_users user_ids bfrom include_admins bfetch = false →
        ∃ recs : List EmailLogRec, outLog = log ++ recs
          ∧ recs.length = res.total
          ∧ recs.countP (fun rec => rec.status == "success") = res.success
          ∧ recs.countP (fun rec => rec.status == "failed") = res.failed) := by
  cases hemp : (resolveUsers db_users user_ids include_admins).isEmpty with
  | true =>
    have heq : send_email_to_users db_users user_ids bfrom include_admins fda bfetch w dateStr log
        = ({ total := 0, success := 0, failed := 0 }, log) := by
      simp [send_email_to_users, hemp]
    rw [heq] at hrun
    injection hrun with hres hlog
    subst hres; subst hlog
    refine ⟨rfl, ?_, ?_⟩
    · intro h
      simp [shortCircuitB, hemp] at h
    · intro _
      exact ⟨[], by simp, rfl, rfl, rfl⟩
  | false =>
    have hemp2 : (resolveUsers db_users user_ids include_admins).isEmpty = false := hemp
    cases hb : truthyN bfrom with
    | true =>
      cases hfind : db_users.find? (fun u => bfrom == some u.id) with
      | some bu =>
        cases bfetch with
        | none =>
          have heq : send_email_to_users db_users user_ids bfrom include_admins fda none w dateStr log
              = ({ total := (resolveUsers db_users user_ids include_admins).length, success := 0,
                   failed := (resolveUsers db_users user_ids include_admins).length }, log) := by
            simp [send_email_to_users, hemp2, hb, hfind]
          rw [heq] at hrun
          injection hrun with hres hlog
          subst hres; subst hlog
          exact ⟨by simp, fun _ => ⟨rfl, rfl⟩,
                 fun h => by simp [shortCircuitB, hemp2, hb, hfind] at h⟩
        | some bevs =>
          have heq : send_email_to_users db_users user_ids bfrom include_admins fda (some bevs) w dateStr log
              = fanoutLoop true (some bevs) fda dateStr w
                  (resolveUsers db_users user_ids include_admins)
                  ({ total := (resolveUsers db_users user_ids include_admins).length,
                     success := 0, failed := 0 }, log) := by
            simp [send_email_to_users, hemp2, hb, hfind]
          obtain ⟨htot, hsum, recs, hlog2, hlen, hs, hf⟩ :=
            fanoutLoop_spec true (some bevs) fda dateStr w
              (resolveUsers db_users user_ids include_admins)
              ({ total := (resolveUsers db_users user_ids include_admins).length,
                 success := 0, failed := 0 }, log)
          rw [← heq, hrun] at htot hsum hlog2 hs hf
          refine ⟨by simp at htot hsum; omega, ?_, ?_⟩
          · intro h
            simp [shortCircuitB, hemp2, hb, hfind] at h
          · intro _
            exact ⟨recs, hlog2, by simp at htot; omega, by simp at hs; omega, by simp at hf; omega⟩
      | none =>
        have heq : send_email_to_users db_users user_ids bfrom include_admins fda bfetch w dateStr log
            = fanoutLoop true none fda dateStr w
                (resolveUsers db_users user_ids include_admins)
                ({ total := (resolveUsers db_users user_ids include_admins).length,
                   success := 0, failed := 0 }, log) := by
          simp [send_email_to_users, hemp2, hb, hfind]
        obtain ⟨htot, hsum, recs, hlog2, hlen, hs, hf⟩ :=
          fanoutLoop_spec true none fda dateStr w
            (resolveUsers db_users user_ids include_admins)
            ({ total := (resolveUsers db_users user_ids include_admins).length,
               success := 0, failed := 0 }, log)
        rw [← heq, hrun] at htot hsum hlog2 hs hf
        refine ⟨by simp at htot hsum; omega, ?_, ?_⟩
        · intro h
          simp [shortCircuitB, hemp2, hb, hfind] at h
        · intro _
          exact ⟨recs, hlog2, by simp at htot; omega, by simp at hs; omega, by simp at hf; omega⟩
    | false =>
      have heq : send_email_to_users db_users user_ids bfrom include_admins fda bfetch w dateStr log
          = fanoutLoop false none fda dateStr w
              (resolveUsers db_users user_ids include_admins)
              ({ total := (resolveUsers db_users user_ids include_admins).length,
                 success := 0, failed := 0 }, log) := by
        simp [send_email_to_users, hemp2, hb]
      obtain ⟨htot, hsum, recs, hlog2, hlen, hs, hf⟩ :=
        fanoutLoop_spec false none fda dateStr w
          (resolveUsers db_users user_ids include_admins)
          ({ total := (resolveUsers db_users user_ids include_admins).length,
             success := 0, failed := 0 }, log)
      rw [← heq, hrun] at htot hsum hlog2 hs hf
      refine ⟨by simp at htot hsum; omega, ?_, ?_⟩
      · intro h
        simp [shortCircuitB, hb] at h
      · intro _
        exact ⟨recs, hlog2, by simp at htot; omega, by simp at hs; omega, by simp at hf; omega⟩

/-- Witness for C1 at a concrete run (two recipients, one success, one
failure caught at the recipient boundary). -/
theorem c1_witness :
    (send_email_to_users exUsers none none true none none exWorld "Oct 11" [] = ((send_email_to_users exUsers none none true none none exWorld "Oct 11" []).1, (send_email_to_users exUsers none none true none none exWorld "Oct 11" []).2))
    ∧ (send_email_to_users exUsers none none true none none exWorld "Oct 11" []).1.total
        = (send_email_to_users exUsers none none true none none exWorld "Oct 11" []).1.success
          + (send_email_to_users exUsers none none true none none exWorld "Oct 11" []).1.failed :=
  ⟨rfl,
   (c1_fanout_accounting exUsers none none true none none exWorld "Oct 11" [] _ _ rfl).1⟩

/-- C2: in personalized mode an exception escaping while a recipient is
processed (after a successful fetch, from rendering or the pre-send code)
is caught at the recipient boundary: the run is the run up to that
recipient, then exactly one failure audit record and one failed count for
that recipient, then the run of the remaining recipients proceeding from
that state, unaffected; and a personalized run of send_email_to_users is
exactly this fold over the resolved recipients. -/
theorem c2_recipient_isolation (db_users : List PyUser) (user_ids : Option (List Nat))
    (include_admins : Bool) (fda : Option Nat) (bfetch : Option (List String))
    (w : Nat → RecipWorld) (dateStr : String) (log : List EmailLogRec)
    (pre post : List PyUser) (u : PyUser) (acc : FanoutRes × List EmailLogRec)
    (evs : List String) (e : String)
    (hf : (w u.id).personalFetch = some evs)
    (hx : (w u.id).renderExn = some e) :
    (fanoutLoop false none fda dateStr w (pre ++ u :: post) acc
      = fanoutLoop false none fda dateStr w post
          ({ total := (fanoutLoop false none fda dateStr w pre acc).1.total,
             success := (fanoutLoop false none fda dateStr w pre acc).1.success,
             failed := (fanoutLoop false none fda dateStr w pre acc).1.failed + 1 },
           (fanoutLoop false none fda dateStr w pre acc).2
             ++ [{ user_id := u.id, user_email := u.email, user_name := u.name,
                   subject := "📅 Calendar Summary - " ++ dateStr, status := "failed",
                   error_message := some e, events_count := 0,
                   fetch_days := userFetchDays fda u }]))
    ∧ (resolveUsers db_users user_ids include_admins = pre ++ u :: post →
        (pre ++ u :: post).isEmpty = false →
        send_email_to_users db_users user_ids none include_admins fda bfetch w dateStr log
          = fanoutLoop false none fda dateStr w (pre ++ u :: post)
              ({ total := (pre ++ u :: post).length, success := 0, failed := 0 }, log)) := by
  constructor
  · have happ : fanoutLoop false none fda dateStr w (pre ++ u :: post) acc
        = fanoutLoop false none fda dateStr w (u :: post)
            (fanoutLoop false none fda dateStr w pre acc) := by
      simp [fanoutLoop, List.foldl_append]
    rw [happ]
    have hstep : fanoutLoop false none fda dateStr w (u :: post)
          (fanoutLoop false none fda dateStr w pre acc)
        = fanoutLoop false none fda dateStr w post
            (processUser false none fda dateStr w (fanoutLoop false none fda dateStr w pre acc) u) := rfl
    rw [hstep]
    congr 1
    simp only [processUser, hf, hx, log_email_sent]
  · intro hres hne
    simp [send_email_to_users, hres, hne, truthyN]

/-- Witness for C2 at a concrete recipient list: the failing recipient is
processed to one failure record and the fold continues after it. -/
theorem c2_witness :
    (exWorld exU2.id).personalFetch = some ["standup"]
    ∧ (exWorld exU2.id).renderExn = some "boom"
    ∧ fanoutLoop false none none "Oct 11" exWorld ([exU1] ++ exU2 :: [])
        ({ total := 2, success := 0, failed := 0 }, [])
      = fanoutLoop false none none "Oct 11" exWorld []
          ({ total := (fanoutLoop false none none "Oct 11" exWorld [exU1]
                ({ total := 2, success := 0, failed := 0 }, [])).1.total,
             success := (fanoutLoop false none none "Oct 11" exWorld [exU1]
                ({ total := 2, success := 0, failed := 0 }, [])).1.success,
             failed := (fanoutLoop false none none "Oct 11" exWorld [exU1]
                ({ total := 2, success := 0, failed := 0 }, [])).1.failed + 1 },
           (fanoutLoop false none none "Oct 11" exWorld [exU1]
              ({ total := 2, success := 0, failed := 0 }, [])).2
             ++ [{ user_id := exU2.id, user_email := exU2.email, user_name := exU2.name,
                   subject := "📅 Calendar Summary - " ++ "Oct 11", status := "failed",
                   error_message := some "boom", events_count := 0,
                   fetch_days := userFetchDays none exU2 }]) :=
  ⟨by decide, by decide,
   (c2_recipient_isolation exUsers none true none none exWorld "Oct 11" []
     [exU1] [] exU2 ({ total := 2, success := 0, failed := 0 }, [])
     ["standup"] "boom" (by decide) (by decide)).1⟩

/-- C3: a broadcast run over a nonempty resolved recipient set whose
source user exists and whose single broadcast fetch fails aborts
immediately with every recipient failed and writes no audit record. -/
theorem c3_broadcast_shortcircuit (db_users : List PyUser) (user_ids : Option (List Nat))
    (bfrom : Option Nat) (include_admins : Bool) (fda : Option Nat)
    (w : Nat → RecipWorld) (dateStr : String) (log : List EmailLogRec)
    (hne : (resolveUsers db_users user_ids include_admins).isEmpty = false)
    (hb : truthyN bfrom = true)
    (hfound : (db_users.find? (fun u => bfrom == some u.id)).isSome = true) :
    send_email_to_users db_users user_ids bfrom include_admins fda none w dateStr log
      = ({ total := (resolveUsers db_users user_ids include_admins).length, success := 0,
           failed := (resolveUsers db_users user_ids include_admins).length }, log) := by
  obtain ⟨bu, hbu⟩ := Option.isSome_iff_exists.mp hfound
  simp [send_email_to_users, hne, hb, hbu]

/-- Witness for C3: a concrete broadcast run over two recipients whose
broadcast fetch fails yields two failures and an unchanged log. -/
theorem c3_witness :
    send_email_to_users exUsers none (some 1) true none none exWorld "Oct 11" []
      = ({ total := 2, success := 0, failed := 2 }, []) :=
  c3_broadcast_shortcircuit exUsers none (some 1) true none exWorld "Oct 11" []
    (by decide) (by decide) (by decide)

theorem contains_iff_mem {l : List String} {a : String} : l.contains a = true ↔ a ∈ l :=
  List.elem_iff

theorem regInv_iff (st : SchedState) :
    regInv st = true ↔ ∀ r ∈ st.jobs, r.job_id ∈ st.triggers → r.status = "pending" := by
  rw [regInv, List.all_eq_true]
  constructor
  · intro h r hr htr
    have hb := h r hr
    cases hcc : st.triggers.contains r.job_id with
    | false =>
      have hmm := contains_iff_mem (l := st.triggers) (a := r.job_id)
      rw [hcc] at hmm
      exact absurd (hmm.mpr htr) (by simp)
    | true =>
      rw [hcc] at hb
      simpa using hb
  · intro h r hr
    cases hcc : st.triggers.contains r.job_id with
    | false => simp [hcc]
    | true =>
      have hmem := contains_iff_mem.mp hcc
      simp [hcc, h r hr hmem]

theorem mem_updateFirst {α : Type} (p : α → Bool) (f : α → α) (l : List α) (y : α)
    (hy : y ∈ updateFirst p f l) : y ∈ l ∨ ∃ x, x ∈ l ∧ p x = true ∧ y = f x := by
  induction l with
  | nil => simp [updateFirst] at hy
  | cons a l ih =>
    by_cases ha : p a = true
    · rw [updateFirst, if_pos ha] at hy
      rcases List.mem_cons.mp hy with h | h
      · exact Or.inr ⟨a, List.mem_cons_self a l, ha, h⟩
      · exact Or.inl (List.mem_cons_of_mem a h)
    · rw [updateFirst, if_neg ha] at hy
      rcases List.mem_cons.mp hy with h | h
      · exact Or.inl (by simp [h])
      · rcases ih h with h1 | ⟨x, hx, hpx, hyx⟩
        · exact Or.inl (List.mem_cons_of_mem a h1)
        · exact Or.inr ⟨x, List.mem_cons_of_mem a hx, hpx, hyx⟩

theorem find?_append_some {α : Type} (p : α → Bool) (l1 l2 : List α) (x : α)
    (h : l1.find? p = some x) : (l1 ++ l2).find? p = some x := by
  rw [List.find?_append, h]
  rfl

theorem jobStatus_ex (st : SchedState) (j s : String) (h : jobStatus st j = some s) :
    ∃ r, st.jobs.find? (fun r => r.job_id == j) = some r
      ∧ r.status = s ∧ r ∈ st.jobs ∧ r.job_id = j := by
  unfold jobStatus at h
  cases hf : st.jobs.find? (fun r => r.job_id == j) with
  | none => rw [hf] at h; simp at h
  | some r =>
    rw [hf] at h
    simp at h
    exact ⟨r, rfl, h, List.mem_of_find?_eq_some hf, by simpa using List.find?_some hf⟩

theorem schedule_step_cases (pd pt : Option Int) (now : Int) (cb : Nat) (st : SchedState)
    (hfresh : schedFresh st (.schedule pd pt now cb) = true) :
    (schedule_email_job pd pt now cb st).2 = st
    ∨ ∃ t : Int, pt = some t ∧ (∀ r ∈ st.jobs, r.job_id ≠ mkJobId t cb)
        ∧ (schedule_email_job pd pt now cb st).2 =
            { jobs := st.jobs ++ [{ job_id := mkJobId t cb, status := "pending", completed_at := none }],
              triggers := mkJobId t cb :: st.triggers.filter (fun x => x != mkJobId t cb) } := by
  cases pd with
  | none => exact Or.inl rfl
  | some d =>
    by_cases hd : d < 1 ∨ d > 365
    · left
      simp only [schedule_email_job, if_pos hd]
    · cases pt with
      | none =>
        left
        simp only [schedule_email_job, if_neg hd]
      | some t =>
        by_cases ht : t ≤ now
        · left
          simp only [schedule_email_job, if_neg hd, if_pos ht]
        · have hfr : ∀ r ∈ st.jobs, r.job_id ≠ mkJobId t cb := by
            have hv : 1 ≤ d ∧ d ≤ 365 ∧ now < t := by omega
            simp only [schedFresh] at hfresh
            rw [if_pos hv] at hfresh
            intro r hr
            simpa using (List.all_eq_true.mp hfresh) r hr
          right
          refine ⟨t, rfl, hfr, ?_⟩
          have hnone : st.jobs.find? (fun r => r.job_id == mkJobId t cb) = none := by
            rw [List.find?_eq_none]
            intro x hx
            simp [hfr x hx]
          simp only [schedule_email_job, if_neg hd, if_neg ht]
          simp only [registerTrigger, create_scheduled_job]
          rw [if_neg (by simp [hnone])]

theorem regStep_preserves (st : SchedState) (op : RegOp)
    (hinv : regInv st = true) (hfresh : schedFresh st op = true) :
    regInv (regStep st op) = true
    ∧ ∀ j s, jobStatus st j = some s → s ≠ "pending" →
        jobStatus (regStep st op) j = some s := by
  have hinvP := (regInv_iff st).mp hinv
  cases op with
  | schedule pd pt now cb =>
    rcases schedule_step_cases pd pt now cb st hfresh with heq | ⟨t, hpt, hfr, heq⟩
    · constructor
      · show regInv (schedule_email_job pd pt now cb st).2 = true
        rw [heq]; exact hinv
      · intro j s hs _
        show jobStatus (schedule_email_job pd pt now cb st).2 j = some s
        rw [heq]; exact hs
    · constructor
      · show regInv (schedule_email_job pd pt now cb st).2 = true
        rw [heq]
        apply (regInv_iff _).mpr
        intro r hr htr
        rcases List.mem_append.mp hr with h1 | h2
        · rcases List.mem_cons.mp htr with hjid | hflt
          · exact absurd hjid (hfr r h1)
          · exact hinvP r h1 (List.mem_filter.mp hflt).1
        · have : r = { job_id := mkJobId t cb, status := "pending", completed_at := none } := by
            simpa using h2
          rw [this]
      · intro j s hs _
        obtain ⟨r0, hf0, hst0, hmem0, hid0⟩ := jobStatus_ex st j s hs
        show jobStatus (schedule_email_job pd pt now cb st).2 j = some s
        rw [heq]
        unfold jobStatus
        rw [find?_append_some _ _ _ _ hf0]
        simp [hst0]
  | fire jid ok t =>
    by_cases hc : st.triggers.contains jid = true
    · have hjmem : jid ∈ st.triggers := contains_iff_mem.mp hc
      constructor
      · show regInv (regStep st (.fire jid ok t)) = true
        simp only [regStep]
        rw [if_pos hc]
        simp only [update_job_status]
        apply (regInv_iff _).mpr
        intro r hr htr
        rcases mem_updateFirst _ _ _ _ hr with h1 | ⟨x, hx, hpx, hyx⟩
        · exact hinvP r h1 (List.mem_filter.mp htr).1
        · have hxid : x.job_id = jid := by simpa using hpx
          have hrid : r.job_id = jid := by rw [hyx]; exact hxid
          have hmf := List.mem_filter.mp htr
          rw [hrid] at hmf
          simp at hmf
      · intro j s hs hterm
        obtain ⟨r0, hf0, hst0, hmem0, hid0⟩ := jobStatus_ex st j s hs
        have hjne : jid ≠ j := by
          intro hjj
          subst hjj
          have hp := hinvP r0 hmem0 (by rw [hid0]; exact hjmem)
          exact hterm (by rw [← hst0, hp])
        simp only [regStep]
        rw [if_pos hc]
        simp only [update_job_status]
        unfold jobStatus
        dsimp only
        rw [find?_updateFirst_other (fun (r : JobRec) => r.job_id == j)
          (fun (r : JobRec) => r.job_id == jid)
          (fun (r : JobRec) => { r with status := if ok then "completed" else "failed", completed_at := some t })
          (fun x hx => by
            have hxx : x.job_id = jid := by simpa using hx
            show (x.job_id == j) = false
            rw [hxx]
            exact beq_eq_false_iff_ne.mpr hjne)
          (fun x => rfl)]
        rw [hf0]
        simp [hst0]
    · constructor
      · show regInv (regStep st (.fire jid ok t)) = true
        simp only [regStep]
        rw [if_neg hc]
        exact hinv
      · intro j s hs _
        simp only [regStep]
        rw [if_neg hc]
        exact hs
  | cancel jid =>
    by_cases hc : st.triggers.contains jid = true
    · have hjmem : jid ∈ st.triggers := contains_iff_mem.mp hc
      by_cases hrow : (st.jobs.find? (fun r => r.job_id == jid)).isSome = true
      · constructor
        · show regInv (regStep st (.cancel jid)) = true
          simp only [regStep, cancel_job]
          rw [if_pos hc]
          simp only [cancel_scheduled_job]
          rw [if_pos hrow]
          apply (regInv_iff _).mpr
          intro r hr htr
          rcases mem_updateFirst _ _ _ _ hr with h1 | ⟨x, hx, hpx, hyx⟩
          · exact hinvP r h1 (List.mem_filter.mp htr).1
          · have hxid : x.job_id = jid := by simpa using hpx
            have hrid : r.job_id = jid := by rw [hyx]; exact hxid
            have hmf := List.mem_filter.mp htr
            rw [hrid] at hmf
            simp at hmf
        · intro j s hs hterm
          obtain ⟨r0, hf0, hst0, hmem0, hid0⟩ := jobStatus_ex st j s hs
          have hjne : jid ≠ j := by
            intro hjj
            subst hjj
            have hp := hinvP r0 hmem0 (by rw [hid0]; exact hjmem)
            exact hterm (by rw [← hst0, hp])
          simp only [regStep, cancel_job]
          rw [if_pos hc]
          simp only [cancel_scheduled_job]
          rw [if_pos hrow]
          unfold jobStatus
          dsimp only
          rw [find?_updateFirst_other (fun (r : JobRec) => r.job_id == j)
            (fun (r : JobRec) => r.job_id == jid)
            (fun (r : JobRec) => { r with status := "cancelled" })
            (fun x hx => by
              have hxx : x.job_id = jid := by simpa using hx
              show (x.job_id == j) = false
              rw [hxx]
              exact beq_eq_false_iff_ne.mpr hjne)
            (fun x => rfl)]
          rw [hf0]
          simp [hst0]
      · constructor
        · show regInv (regStep st (.cancel jid)) = true
          simp only [regStep, cancel_job]
          rw [if_pos hc]
          simp only [cancel_scheduled_job]
          rw [if_neg hrow]
          apply (regInv_iff _).mpr
          intro r hr htr
          exact hinvP r hr (List.mem_filter.mp htr).1
        · intro j s hs _
          simp only [regStep, cancel_job]
          rw [if_pos hc]
          simp only [cancel_scheduled_job]
          rw [if_neg hrow]
          exact hs
    · constructor
      · show regInv (regStep st (.cancel jid)) = true
        simp only [regStep, cancel_job]
        rw [if_neg hc]
        exact hinv
      · intro j s hs _
        simp only [regStep, cancel_job]
        rw [if_neg hc]
        exact hs

/-- C8 counterexample: the operation sequence schedule, cancel, schedule
the same slot again, external trigger fires, is a reachable registrar
run in which the job reaches the terminal state cancelled and is later
moved to completed: the second schedule call fails on the duplicate row
but has already re-registered the trigger, and update_job_status
overwrites the status unconditionally when that trigger fires. -/
theorem c8_counterexample :
    jobStatus (regExec regInit [exSched, RegOp.cancel exJid]) exJid = some "cancelled"
    ∧ exBadOps = [exSched, RegOp.cancel exJid] ++ [exSched, RegOp.fire exJid true 100]
    ∧ jobStatus (regExec regInit exBadOps) exJid = some "completed"
    ∧ ("cancelled" : String) ≠ "completed" := by
  exact ⟨by decide, rfl, by decide, by decide⟩

/-- C8 amended: provided no schedule operation reuses the job id of an
already-persisted row, the registrar transition system preserves the
trigger-pending invariant and terminal states are absorbing: a job whose
status is any non-pending state keeps that status across every further
schedule, fire, or cancel operation, so the pending-to-terminal
transition happens at most once and cancellation changes a status only
while the job is pending. -/
theorem c8_terminal_absorbing (st : SchedState) (ops : List RegOp) (j s : String)
    (hinv : regInv st = true) (hrun : goodRun st ops = true)
    (hstat : jobStatus st j = some s) (hterm : s ≠ "pending") :
    jobStatus (regExec st ops) j = some s ∧ regInv (regExec st ops) = true := by
  induction ops generalizing st with
  | nil => exact ⟨hstat, hinv⟩
  | cons op ops ih =>
    simp only [goodRun, Bool.and_eq_true] at hrun
    obtain ⟨hfresh, hrun2⟩ := hrun
    obtain ⟨hinv2, habs⟩ := regStep_preserves st op hinv hfresh
    exact ih (regStep st op) hinv2 hrun2 (habs j s hstat hterm)

/-- Witness for C8 amended: a completed job stays completed across a
further cancel and a fresh schedule. -/
theorem c8_witness :
    jobStatus (regExec (regExec regInit [exSched, RegOp.fire exJid true 100])
      [RegOp.cancel exJid, RegOp.schedule (some 7) (some 200) 0 1]) exJid = some "completed" :=
  (c8_terminal_absorbing (regExec regInit [exSched, RegOp.fire exJid true 100])
    [RegOp.cancel exJid, RegOp.schedule (some 7) (some 200) 0 1] exJid "completed"
    (by decide) (by decide) (by decide) (by decide)).1

theorem hour12_bounds (h : Nat) : 1 ≤ hour12 h ∧ hour12 h ≤ 12 := by
  unfold hour12
  by_cases hz : h % 12 = 0
  · rw [if_pos hz]; omega
  · rw [if_neg hz]
    have : h % 12 < 12 := Nat.mod_lt _ (by omega)
    omega

theorem daysInMonth_le (y m : Nat) : daysInMonth y m ≤ 31 := by
  unfold daysInMonth
  split_ifs <;> omega

theorem pyFromISO_bounds (s : String) (dt : PyDateTime) (h : pyFromISO s = some dt) :
    1 ≤ dt.month ∧ dt.month ≤ 12 ∧ 1 ≤ dt.day ∧ dt.day ≤ 31
    ∧ dt.hour ≤ 23 ∧ dt.minute ≤ 59 := by
  cases hp : parseFields s.data with
  | none =>
    have h' : (none : Option PyDateTime) = some dt := by
      unfold pyFromISO at h
      rw [hp] at h
      exact h
    exact absurd h' (by simp)
  | some x =>
    have h' : mkDT x.1 x.2.1 x.2.2.1 x.2.2.2.1 x.2.2.2.2.1 x.2.2.2.2.2 = some dt := by
      unfold pyFromISO at h
      rw [hp] at h
      exact h
    unfold mkDT at h'
    split at h'
    · rename_i hcond
      obtain ⟨hy1, hy2, hm1, hm2, hd1, hd2, hh, hmi, hse⟩ := hcond
      injection h' with hdt
      subst hdt
      refine ⟨hm1, hm2, hd1, ?_, hh, hmi⟩
      have h31 := daysInMonth_le x.1 x.2.1
      show x.2.2.1 ≤ 31
      omega
    · exact absurd h' (by simp)

theorem lstrip0_of_headNonzero (l rest : List Char) (h : headNonzero l = true) :
    lstrip0 (l ++ rest) = l ++ rest := by
  cases l with
  | nil => simp [headNonzero] at h
  | cons c cs =>
    have hc : ¬ (c = '0') := by simpa [headNonzero] using h
    simp [lstrip0, List.dropWhile_cons, hc]

theorem natChars_headNonzero (n : Nat) (h1 : 1 ≤ n) (h2 : n ≤ 59) :
    headNonzero (natChars n) = true := by
  interval_cases n <;> decide

theorem lstrip0_strf (hr : Nat) (h1 : 1 ≤ hr) (h2 : hr ≤ 12) (rest : List Char) :
    lstrip0 (pad2c hr ++ rest) = natChars hr ++ rest := by
  by_cases hlt : hr < 10
  · have hpad : pad2c hr = '0' :: natChars hr := by rw [pad2c, if_pos hlt]
    rw [hpad]
    show lstrip0 ('0' :: (natChars hr ++ rest)) = natChars hr ++ rest
    have hstep : lstrip0 ('0' :: (natChars hr ++ rest)) = lstrip0 (natChars hr ++ rest) := by
      simp [lstrip0, List.dropWhile_cons]
    rw [hstep]
    exact lstrip0_of_headNonzero _ _ (natChars_headNonzero hr h1 (by omega))
  · have hpad : pad2c hr = natChars hr := by rw [pad2c, if_neg hlt]
    rw [hpad]
    exact lstrip0_of_headNonzero _ _ (natChars_headNonzero hr h1 (by omega))

theorem replSp0_sp0 (rest : List Char) :
    replSp0 (' ' :: '0' :: rest) = ' ' :: replSp0 rest := by
  rw [replSp0]
  simp

theorem replSp0_append (a b : List Char) (ha : hasSp0 a = false)
    (hab : a.getLast? = some ' ' → b.head? ≠ some '0') :
    replSp0 (a ++ b) = a ++ replSp0 b := by
  induction a with
  | nil => simp
  | cons c a' ih =>
    cases a' with
    | nil =>
      cases b with
      | nil => simp [replSp0]
      | cons b0 bs =>
        have hcb : ¬ (c = ' ' ∧ b0 = '0') := by
          rintro ⟨hc1, hb1⟩
          exact (hab (by simp [hc1])) (by simp [hb1])
        show replSp0 (c :: b0 :: bs) = [c] ++ replSp0 (b0 :: bs)
        rw [replSp0, if_neg hcb]
        rfl
    | cons c2 rest =>
      have hcc : ¬ (c = ' ' ∧ c2 = '0') := by
        intro hh
        rw [hasSp0, if_pos hh] at ha
        exact absurd ha (by simp)
      have ha2 : hasSp0 (c2 :: rest) = false := by
        rw [hasSp0, if_neg hcc] at ha
        exact ha
      have hab2 : (c2 :: rest).getLast? = some ' ' → b.head? ≠ some '0' := by
        intro hl
        apply hab
        rw [List.getLast?_cons_cons]
        exact hl
      show replSp0 (c :: c2 :: (rest ++ b)) = (c :: c2 :: rest) ++ replSp0 b
      rw [replSp0, if_neg hcc]
      have : c2 :: (rest ++ b) = (c2 :: rest) ++ b := rfl
      rw [this, ih ha2 hab2]
      rfl

theorem replSp0_of_clean (l : List Char) (hl : hasSp0 l = false) : replSp0 l = l := by
  have h := replSp0_append l [] hl (by intro _ hcon; simp at hcon)
  have h2 : replSp0 ([] : List Char) = [] := rfl
  rw [List.append_nil, h2, List.append_nil] at h
  exact h

theorem wdmon_clean (wdi m : Nat) (hw : wdi < 7) (hm1 : 1 ≤ m) (hm2 : m ≤ 12) :
    hasSp0 ((weekdayName wdi).data ++ ',' :: ' ' :: (monthAb m).data) = false
    ∧ ((weekdayName wdi).data ++ ',' :: ' ' :: (monthAb m).data).getLast? ≠ some ' ' := by
  interval_cases wdi <;> interval_cases m <;> exact ⟨by decide, by decide⟩

theorem minTail_id (mi : Nat) (hmi : mi ≤ 59) (ap : List Char)
    (hap : ap = ['A', 'M'] ∨ ap = ['P', 'M']) :
    replSp0 (':' :: (pad2c mi ++ ' ' :: ap)) = ':' :: (pad2c mi ++ ' ' :: ap) := by
  apply replSp0_of_clean
  rcases hap with h | h <;> subst h <;> (interval_cases mi <;> decide)

theorem replSp0_space_num (n : Nat) (h1 : 1 ≤ n) (h2 : n ≤ 31) (tail : List Char) :
    replSp0 (' ' :: (pad2c n ++ tail)) = ' ' :: (natChars n ++ replSp0 tail) := by
  by_cases hl : n < 10
  · have hpad : pad2c n = '0' :: natChars n := by rw [pad2c, if_pos hl]
    rw [hpad]
    show replSp0 (' ' :: '0' :: (natChars n ++ tail)) = _
    rw [replSp0_sp0]
    rw [replSp0_append (natChars n) tail (by interval_cases n <;> decide)
      (fun hla => absurd hla (by interval_cases n <;> decide))]
  · have hge : 10 ≤ n := by omega
    have hpad : pad2c n = natChars n := by rw [pad2c, if_neg hl]
    rw [hpad]
    have hshape : (' ' :: (natChars n ++ tail)) = (' ' :: natChars n) ++ tail := rfl
    rw [hshape]
    rw [replSp0_append (' ' :: natChars n) tail (by interval_cases n <;> decide)
      (fun hla => absurd hla (by interval_cases n <;> decide))]
    rfl

theorem dayOfWeek_lt (y m d : Nat) : dayOfWeek y m d < 7 := by
  unfold dayOfWeek
  exact Nat.mod_lt _ (by omega)

theorem replSp0_strfFullT (dt : PyDateTime)
    (hm1 : 1 ≤ dt.month) (hm2 : dt.month ≤ 12) (hd1 : 1 ≤ dt.day) (hd2 : dt.day ≤ 31)
    (hmin : dt.minute ≤ 59) :
    replSp0 (strfFullT dt) =
      (weekdayName (dayOfWeek dt.year dt.month dt.day)).data
        ++ ',' :: ' ' :: (monthAb dt.month).data
        ++ ' ' :: natChars dt.day
        ++ ' ' :: 'a' :: 't' :: ' ' :: natChars (hour12 dt.hour)
        ++ ':' :: pad2c dt.minute
        ++ ' ' :: ampmChars dt.hour := by
  obtain ⟨hA1, hA2⟩ := wdmon_clean (dayOfWeek dt.year dt.month dt.day) dt.month
    (dayOfWeek_lt dt.year dt.month dt.day) hm1 hm2
  have hap : ampmChars dt.hour = ['A', 'M'] ∨ ampmChars dt.hour = ['P', 'M'] := by
    unfold ampmChars
    by_cases hh : dt.hour < 12
    · rw [if_pos hh]; left; rfl
    · rw [if_neg hh]; right; rfl
  have hb12 := hour12_bounds dt.hour
  have hassoc : strfFullT dt =
      ((weekdayName (dayOfWeek dt.year dt.month dt.day)).data ++ ',' :: ' ' :: (monthAb dt.month).data)
        ++ (' ' :: (pad2c dt.day
          ++ ([' ', 'a', 't'] ++ (' ' :: (pad2c (hour12 dt.hour)
            ++ (':' :: (pad2c dt.minute ++ ' ' :: ampmChars dt.hour))))))) := by
    simp [strfFullT, List.append_assoc]
  rw [hassoc]
  rw [replSp0_append _ _ hA1 (fun hla => absurd hla hA2)]
  rw [replSp0_space_num dt.day hd1 hd2]
  rw [replSp0_append [' ', 'a', 't'] _ (by decide) (fun hla => absurd hla (by decide))]
  rw [replSp0_space_num (hour12 dt.hour) hb12.1 (le_trans hb12.2 (by norm_num))]
  rw [minTail_id dt.minute hmin _ hap]
  simp [List.append_assoc]

/-- C9 counterexample: the unparseable start string hello is rendered as
All Day by format_time_12hr (any string without the T separator skips
parsing entirely), not returned verbatim; format_datetime_full does
return it verbatim. -/
theorem c9_counterexample :
    format_time_12hr "hello" = "All Day"
    ∧ pyFromISO "hello" = none
    ∧ ("All Day" : String) ≠ "hello"
    ∧ format_datetime_full "hello" = "hello" := by
  exact ⟨by decide, by decide, by decide, by decide⟩

/-- C9 amended: an event start string with a T separator that parses
renders as twelve-hour time with no leading zero on the hour, in the
generative-prompt formatter and (inside the full date label) in the
fallback formatter; a string without T renders as All Day in the prompt
formatter (whether or not it is a valid date, parsing is not attempted),
while the fallback formatter parses it and renders the full date with an
All Day marker when valid; malformed strings with T are returned
verbatim by both formatters, and malformed strings without T are
returned verbatim by the fallback formatter only. -/
theorem c9_time_format_rules :
    (∀ (s : String) (dt : PyDateTime), containsT s = true →
      pyFromISO (replaceZ s) = some dt →
      format_time_12hr s = specTimeLabel dt.hour dt.minute)
    ∧ (∀ h mi : Nat, (specTimeLabel h mi).data.head? ≠ some '0')
    ∧ (∀ s : String, containsT s = false → format_time_12hr s = "All Day")
    ∧ (∀ s : String, containsT s = true → pyFromISO (replaceZ s) = none →
        format_time_12hr s = s)
    ∧ (∀ (s : String) (dt : PyDateTime), containsT s = true →
        pyFromISO (replaceZ s) = some dt →
        format_datetime_full s = String.mk
          ((weekdayName (dayOfWeek dt.year dt.month dt.day)).data
            ++ ',' :: ' ' :: (monthAb dt.month).data
            ++ ' ' :: natChars dt.day
            ++ ' ' :: 'a' :: 't' :: ' ' :: (specTimeLabel dt.hour dt.minute).data))
    ∧ (∀ (s : String) (dt : PyDateTime), containsT s = false →
        pyFromISO s = some dt → format_datetime_full s = String.mk (strfFullD dt))
    ∧ (∀ s : String, containsT s = false → pyFromISO s = none →
        format_datetime_full s = s)
    ∧ (∀ s : String, containsT s = true → pyFromISO (replaceZ s) = none →
        format_datetime_full s = s) := by
  refine ⟨?_, ?_, ?_, ?_, ?_, ?_, ?_, ?_⟩
  · intro s dt hT hp
    unfold format_time_12hr
    rw [if_pos hT, hp]
    show String.mk (lstrip0 (strf_IMp dt)) = specTimeLabel dt.hour dt.minute
    unfold strf_IMp specTimeLabel
    congr 1
    simp only [List.append_assoc]
    exact lstrip0_strf (hour12 dt.hour) (hour12_bounds dt.hour).1 (hour12_bounds dt.hour).2 _
  · intro h mi
    have hz := natChars_headNonzero (hour12 h) (hour12_bounds h).1
      (le_trans (hour12_bounds h).2 (by norm_num))
    show ((natChars (hour12 h) ++ ':' :: pad2c mi ++ ' ' :: ampmChars h).head?) ≠ some '0'
    cases hnc : natChars (hour12 h) with
    | nil => rw [hnc] at hz; simp [headNonzero] at hz
    | cons c cs =>
      rw [hnc] at hz
      have hcz : ¬ (c = '0') := by simpa [headNonzero] using hz
      simp [hcz]
  · intro s hT
    unfold format_time_12hr
    rw [if_neg (by simp [hT])]
  · intro s hT hp
    unfold format_time_12hr
    rw [if_pos hT, hp]
  · intro s dt hT hp
    unfold format_datetime_full
    rw [if_pos hT, hp]
    show String.mk (replSp0 (strfFullT dt)) = _
    obtain ⟨hm1, hm2, hd1, hd2, hh23, hmi59⟩ := pyFromISO_bounds _ dt hp
    rw [replSp0_strfFullT dt hm1 hm2 hd1 hd2 hmi59]
    have hlab : (specTimeLabel dt.hour dt.minute).data
        = natChars (hour12 dt.hour) ++ ':' :: pad2c dt.minute ++ ' ' :: ampmChars dt.hour := rfl
    rw [hlab]
    congr 1
    simp [List.append_assoc]
  · intro s dt hT hp
    unfold format_datetime_full
    rw [if_neg (by simp [hT]), hp]
  · intro s hT hp
    unfold format_datetime_full
    rw [if_neg (by simp [hT]), hp]
  · intro s hT hp
    unfold format_datetime_full
    rw [if_pos hT, hp]

/-- Witness for C9 amended at the scenario input: a nine-in-the-morning
event renders with no leading zero in both formatters. -/
theorem c9_witness :
    format_time_12hr "2025-10-28T09:00:00Z" = specTimeLabel 9 0
    ∧ specTimeLabel 9 0 = "9:00 AM"
    ∧ format_datetime_full "2025-10-28T09:00:00Z" = "Tuesday, Oct 28 at 9:00 AM" := by
  refine ⟨?_, by decide, ?_⟩
  · exact c9_time_format_rules.1 "2025-10-28T09:00:00Z"
      { year := 2025, month := 10, day := 28, hour := 9, minute := 0, second := 0 }
      (by decide) (by decide)
  · have h := c9_time_format_rules.2.2.2.2.1 "2025-10-28T09:00:00Z"
      { year := 2025, month := 10, day := 28, hour := 9, minute := 0, second := 0 }
      (by decide) (by decide)
    rw [h]
    decide

end ScheduleAI
